import Mathlib

/- Shallow embedding of the NetMonitor repository: packet_sniffer.py,
   data_aggregator.py, dns_resolver.py, process_mapper.py, monitor.py,
   database.py and config.py. -/

namespace NetMonitor

/-- Capacity of the sniffer packet queue, config.SNIFFER_QUEUE_SIZE. -/
def SNIFFER_QUEUE_SIZE : Nat := 1000

/-- Number of recent packets kept by the aggregator, config.MAX_RECENT_PACKETS. -/
def MAX_RECENT_PACKETS : Nat := 100

/-- Database batch size, config.BATCH_INSERT_SIZE. -/
def BATCH_INSERT_SIZE : Nat := 10

/-- The enqueue path of PacketSniffer under a packet handler call
    (packet_sniffer.py, put_nowait, and on queue.Full a get_nowait of the
    oldest element followed by put_nowait of the new one).  The bounded
    FIFO queue of capacity C is modelled as a list, oldest element first. -/
def sniffer_enqueue {α : Type} (C : Nat) (q : List α) (x : α) : List α :=
  if q.length < C then q ++ [x] else q.drop 1 ++ [x]

/-- Character list test: needle is an initial segment of hay.
    Models Python str.startswith. -/
def startsWithChars : List Char → List Char → Bool
  | [], _ => true
  | _ :: _, [] => false
  | a :: as, b :: bs => a == b && startsWithChars as bs

/-- Contiguous substring test on character lists.  Models the Python
    membership operator on strings, as in keyword in hostname_lower. -/
def containsSub (needle : List Char) : List Char → Bool
  | [] => needle.isEmpty
  | b :: bs => startsWithChars needle (b :: bs) || containsSub needle bs

/-- Lower casing of a character list.  Models Python str.lower on the
    hostnames the resolver sees. -/
def lowerChars (cs : List Char) : List Char := cs.map Char.toLower

def streamingKws : List (List Char) :=
  ["youtube".data, "youtu.be".data, "netflix".data, "hulu".data, "spotify".data,
   "twitch".data, "vimeo".data, "dailymotion".data, "soundcloud".data, "tidal".data,
   "pandora".data, "disneyplus".data, "hbomax".data, "primevideo".data, "appletv".data]

def socialKws : List (List Char) :=
  ["facebook".data, "fb.com".data, "instagram".data, "twitter".data, "tiktok".data,
   "linkedin".data, "reddit".data, "snapchat".data, "pinterest".data, "whatsapp".data,
   "telegram".data, "discord".data, "slack".data]

def developmentKws : List (List Char) :=
  ["github".data, "gitlab".data, "bitbucket".data, "stackoverflow".data,
   "stackexchange".data, "npmjs".data, "pypi".data, "docker".data,
   "kubernetes".data, "jenkins".data]

def cloudKws : List (List Char) :=
  ["amazonaws".data, "aws".data, "azure".data, "googlecloud".data, "gcp".data,
   "cloudflare".data, "digitalocean".data, "heroku".data, "vercel".data]

def shoppingKws : List (List Char) :=
  ["amazon".data, "ebay".data, "shopify".data, "etsy".data, "walmart".data,
   "alibaba".data, "aliexpress".data, "target".data]

def communicationKws : List (List Char) :=
  ["zoom".data, "teams".data, "meet.google".data, "webex".data, "skype".data,
   "gotomeeting".data, "bluejeans".data]

def gamingKws : List (List Char) :=
  ["steam".data, "epicgames".data, "origin".data, "battle.net".data,
   "playstation".data, "xbox".data, "nintendo".data, "twitch".data]

def newsKws : List (List Char) :=
  ["nytimes".data, "cnn".data, "bbc".data, "reuters".data, "bloomberg".data,
   "theguardian".data, "wsj".data, "washingtonpost".data]

def appleKws : List (List Char) :=
  ["apple.com".data, "icloud".data, "itunes".data, "appstore".data, "apple-dns".data]

/-- config.CATEGORY_KEYWORDS, in source order (Python dicts iterate in
    insertion order). -/
def CATEGORY_KEYWORDS : List (String × List (List Char)) :=
  [("Streaming", streamingKws),
   ("Social Media", socialKws),
   ("Development", developmentKws),
   ("Cloud Services", cloudKws),
   ("Shopping", shoppingKws),
   ("Communication", communicationKws),
   ("Gaming", gamingKws),
   ("News", newsKws),
   ("Apple Services", appleKws)]

/-- The inner loop of DNSResolver.categorize_domain: walk the category
    table in order and return the first category one of whose keywords
    occurs in the lowered hostname. -/
def lookupCat (hl : List Char) : List (String × List (List Char)) → String
  | [] => "Other"
  | e :: rest => if e.2.any (fun kw => containsSub kw hl) then e.1 else lookupCat hl rest

/-- DNSResolver.categorize_domain.  A missing or empty hostname (Python
    falsy) yields Other; otherwise the hostname is lowered and matched
    against the ordered keyword table, first match winning. -/
def categorize_domain (hostname : Option String) : String :=
  match hostname with
  | none => "Other"
  | some s => if s.data.isEmpty then "Other" else lookupCat (lowerChars s.data) CATEGORY_KEYWORDS

/-- Split a character list at the dots, as dotted-quad notation reads. -/
def splitDots : List Char → List (List Char)
  | [] => [[]]
  | c :: cs =>
    match splitDots cs with
    | [] => [[]]
    | g :: gs => if c = '.' then [] :: g :: gs else (c :: g) :: gs

def digitVal (c : Char) : Option Nat :=
  if '0' ≤ c ∧ c ≤ '9' then some (c.toNat - '0'.toNat) else none

def parseNumAux : List Char → Nat → Option Nat
  | [], acc => some acc
  | c :: cs, acc =>
    match digitVal c with
    | some d => parseNumAux cs (acc * 10 + d)
    | none => none

/-- Parse a nonempty run of decimal digits. -/
def parseNum : List Char → Option Nat
  | [] => none
  | cs => parseNumAux cs 0

/-- The private ranges exactly as claim C3 words them: IPv4 10/8,
    172.16/12 and 192.168/16, read off a dotted-quad string.  This
    definition follows the claim text and is compared against the
    classifier actually implemented in data_aggregator.py. -/
def claimPrivateRange (ip : String) : Bool :=
  match (splitDots ip.data).map parseNum with
  | [some a, some b, some c, some d] =>
    (decide (a ≤ 255) && decide (b ≤ 255) && decide (c ≤ 255) && decide (d ≤ 255)) &&
    ((a == 10) || ((a == 172) && decide (16 ≤ b) && decide (b ≤ 31)) ||
     ((a == 192) && (b == 168)))
  | _ => false

/-- Outcome of one reverse DNS lookup attempt, the behaviour of
    socket.gethostbyaddr as dns_resolver.py observes it. -/
inductive ReverseDnsOutcome where
  | found (hostname : String)
  | herror
  | gaierror
  | timedOut
  | otherError (msg : String)

/-- DNSResolver.resolve_ip: the hostname on success, None on socket.herror,
    socket.gaierror, socket.timeout, or any other exception. -/
def resolve_ip (o : ReverseDnsOutcome) : Option String :=
  match o with
  | .found h => some h
  | _ => none

/-- The fields of the packet dictionary that DataAggregator.add_packet
    reads.  Each field is optional because add_packet uses dict.get with a
    default.  Times are modelled as rationals. -/
structure PacketData where
  timestamp : ℚ
  source_ip : Option String
  app_name : Option String
  category : Option String
  packet_size : Option Nat

/-- One entry of the bandwidth_history deque. -/
structure BandwidthPoint where
  timestamp : ℚ
  rate : ℚ
  upload_rate : ℚ
  download_rate : ℚ

/-- The mutable state of DataAggregator.  The two defaultdicts are
    insertion-ordered association lists with unique keys, the deques are
    lists with the oldest element first, and the local IP set is a list
    without duplicates. -/
structure AggState where
  recent_packets : List PacketData
  app_bandwidth : List (String × Nat)
  app_packet_count : List (String × Nat)
  category_bandwidth : List (String × Nat)
  bandwidth_history : List BandwidthPoint
  last_rate_calc : ℚ
  bytes_since_last_calc : Nat
  current_rate : ℚ
  total_upload : Nat
  total_download : Nat
  total_packets : Nat
  start_time : ℚ
  local_ips : List String

/-- DataAggregator.__init__ at time t0. -/
def initAggState (t0 : ℚ) : AggState :=
  { recent_packets := []
    app_bandwidth := []
    app_packet_count := []
    category_bandwidth := []
    bandwidth_history := []
    last_rate_calc := t0
    bytes_since_last_calc := 0
    current_rate := 0
    total_upload := 0
    total_download := 0
    total_packets := 0
    start_time := t0
    local_ips := [] }

/-- A deque with maxlen cap: append drops the oldest element when full. -/
def deque_push {α : Type} (cap : Nat) (l : List α) (x : α) : List α :=
  if l.length < cap then l ++ [x] else l.drop 1 ++ [x]

/-- Increment the value stored under k in a defaultdict of ints,
    preserving insertion order. -/
def bumpAssoc (k : String) (v : Nat) : List (String × Nat) → List (String × Nat)
  | [] => [(k, v)]
  | e :: rest => if e.1 = k then (e.1, e.2 + v) :: rest else e :: bumpAssoc k v rest

/-- DataAggregator._is_outgoing: returns the decision together with the
    possibly grown local IP set.  The source tests membership of the cache
    first and then the three string prefixes 192.168. and 10. and 172.,
    adding the IP to the cache when a prefix matches. -/
def is_outgoing (local_ips : List String) (ip : String) : Bool × List String :=
  if local_ips.contains ip then (true, local_ips)
  else if startsWithChars "192.168.".data ip.data || startsWithChars "10.".data ip.data ||
          startsWithChars "172.".data ip.data then
    (true, local_ips ++ [ip])
  else (false, local_ips)

/-- DataAggregator.add_packet at wall-clock time now. -/
def add_packet (st : AggState) (p : PacketData) (now : ℚ) : AggState :=
  let app := p.app_name.getD "Unknown"
  let size := p.packet_size.getD 0
  let cat := p.category.getD "Other"
  let sip := p.source_ip.getD ""
  let og := is_outgoing st.local_ips sip
  let st1 : AggState :=
    { recent_packets := deque_push MAX_RECENT_PACKETS st.recent_packets p
      app_bandwidth := bumpAssoc app size st.app_bandwidth
      app_packet_count := bumpAssoc app 1 st.app_packet_count
      category_bandwidth := bumpAssoc cat size st.category_bandwidth
      bandwidth_history := st.bandwidth_history
      last_rate_calc := st.last_rate_calc
      bytes_since_last_calc := st.bytes_since_last_calc + size
      current_rate := st.current_rate
      total_upload := if og.1 then st.total_upload + size else st.total_upload
      total_download := if og.1 then st.total_download else st.total_download + size
      total_packets := st.total_packets + 1
      start_time := st.start_time
      local_ips := og.2 }
  if 1 ≤ now - st.last_rate_calc then
    { st1 with
      current_rate := (st1.bytes_since_last_calc : ℚ) / (now - st.last_rate_calc)
      bandwidth_history := deque_push 100 st.bandwidth_history
        { timestamp := now
          rate := (st1.bytes_since_last_calc : ℚ) / (now - st.last_rate_calc)
          upload_rate := (st1.total_upload : ℚ) / (now - st.start_time)
          download_rate := (st1.total_download : ℚ) / (now - st.start_time) }
      bytes_since_last_calc := 0
      last_rate_calc := now }
  else st1

/-- Run a fresh aggregator over a sequence of add_packet calls, each with
    its own wall-clock time. -/
def runAgg (t0 : ℚ) (ps : List (PacketData × ℚ)) : AggState :=
  ps.foldl (fun s pr => add_packet s pr.1 pr.2) (initAggState t0)

/-- Sum of the values of an association list of byte counters. -/
def sumValues (l : List (String × Nat)) : Nat := (l.map Prod.snd).sum

/-- Sum of the packet sizes of a call sequence, with the dict.get default. -/
def sumSizes (ps : List (PacketData × ℚ)) : Nat :=
  (ps.map (fun pr => pr.1.packet_size.getD 0)).sum

/-- Insertion into a list kept in descending order of the given value. -/
def insertByDesc {α : Type} (val : α → Int) (x : α) : List α → List α
  | [] => [x]
  | y :: ys => if val y ≤ val x then x :: y :: ys else y :: insertByDesc val x ys

/-- Sort in descending order of the given value, as Python sorted with a
    key and reverse true. -/
def sortByDesc {α : Type} (val : α → Int) : List α → List α
  | [] => []
  | x :: xs => insertByDesc val x (sortByDesc val xs)

/-- DataAggregator.get_top_apps. -/
def get_top_apps (st : AggState) (limit : Nat) : List (String × Nat) :=
  (sortByDesc (fun pr => (pr.2 : Int)) st.app_bandwidth).take limit

/-- DataAggregator.get_bandwidth_by_category. -/
def get_bandwidth_by_category (st : AggState) : List (String × Nat) :=
  sortByDesc (fun pr => (pr.2 : Int)) st.category_bandwidth

/-- DataAggregator.get_bandwidth_history. -/
def get_bandwidth_history (st : AggState) : List BandwidthPoint :=
  st.bandwidth_history

/-- DataAggregator.get_recent_packets: the Python slice packets[-limit:]
    is taken only when the buffer is strictly longer than the limit, and a
    limit of zero there returns the whole buffer. -/
def get_recent_packets (st : AggState) (limit : Nat) : List PacketData :=
  let packets := st.recent_packets
  if limit < packets.length then
    if limit = 0 then packets else packets.drop (packets.length - limit)
  else packets

/-- The dictionary returned by DataAggregator.get_current_stats. -/
structure CurrentStats where
  total_packets : Nat
  total_bandwidth : Nat
  total_upload : Nat
  total_download : Nat
  current_rate : ℚ
  active_apps : Nat
  uptime : ℚ
  packets_per_second : ℚ

/-- DataAggregator.get_current_stats at wall-clock time now. -/
def get_current_stats (st : AggState) (now : ℚ) : CurrentStats :=
  let uptime := now - st.start_time
  { total_packets := st.total_packets
    total_bandwidth := st.total_upload + st.total_download
    total_upload := st.total_upload
    total_download := st.total_download
    current_rate := st.current_rate
    active_apps := st.app_bandwidth.length
    uptime := uptime
    packets_per_second := if 0 < uptime then (st.total_packets : ℚ) / uptime else 0 }

/-- DataAggregator.reset_stats at wall-clock time now.  It clears the
    listed fields and restarts the uptime clock; last_rate_calc and
    local_ips are not among the fields it touches. -/
def reset_stats (st : AggState) (now : ℚ) : AggState :=
  { st with
    recent_packets := []
    app_bandwidth := []
    app_packet_count := []
    category_bandwidth := []
    bandwidth_history := []
    total_packets := 0
    total_upload := 0
    total_download := 0
    bytes_since_last_calc := 0
    current_rate := 0
    start_time := now }

/-- A connection key of the ProcessMapper cache:
    local port, remote IP, remote port. -/
abbrev ConnKey := Nat × String × Nat

/-- A cache value: process id and process name. -/
abbrev ProcInfo := Nat × String

/-- The mutable state of ProcessMapper: the snapshot cache as an
    insertion-ordered association list, plus the refresh counter and the
    refresh interval (10 in the source). -/
structure PMState where
  connection_cache : List (ConnKey × ProcInfo)
  refresh_counter : Nat
  refresh_interval : Nat

/-- Dictionary key lookup over the snapshot cache. -/
def lookupConn (cache : List (ConnKey × ProcInfo)) (k : ConnKey) : Option ProcInfo :=
  (cache.find? (fun e => e.1 == k)).map Prod.snd

/-- Outcome of the external lsof invocation.  The except tuple in the
    source catches subprocess.TimeoutExpired, subprocess.SubprocessError
    and ValueError; an error of the OSError family raised while spawning
    the subprocess (for instance FileNotFoundError when the lsof binary is
    missing) is not a SubprocessError, is not caught, and propagates. -/
inductive LsofOutcome where
  | fail
  | oserror (msg : String)
  | ok (returncode : Int) (stdoutLines : List String)

/-- The line loop of ProcessMapper._find_process_with_lsof: remember the
    last pid line seen, stop at the first command line.  A pid line whose
    digits do not parse raises ValueError, modelled as none. -/
def lsofScan : List String → Option Nat → Option (Option Nat × Option String)
  | [], pid => some (pid, none)
  | l :: rest, pid =>
    match l.data with
    | 'p' :: ds =>
      match parseNum ds with
      | none => none
      | some n => lsofScan rest (some n)
    | 'c' :: ds => some (pid, some (String.mk ds))
    | _ => lsofScan rest pid

/-- ProcessMapper._find_process_with_lsof.  Caught failures (timeout,
    subprocess error, a pid line whose digits do not parse), a nonzero
    exit, empty output and incomplete output all yield the unresolved
    pair; an OS-level error spawning the subprocess escapes the except
    tuple, modelled as the error case of Except.  The Python truthiness
    test if pid and process_name rejects a zero pid and an empty name. -/
def find_process_with_lsof (o : LsofOutcome) :
    Except String (Option Nat × Option String) :=
  match o with
  | .fail => .ok (none, none)
  | .oserror msg => .error msg
  | .ok rc lines =>
    if rc = 0 ∧ lines ≠ [] then
      match lsofScan lines none with
      | none => .ok (none, none)
      | some (some pid, some name) =>
        if pid ≠ 0 ∧ name ≠ "" then .ok (some pid, some name) else .ok (none, none)
      | some _ => .ok (none, none)
    else .ok (none, none)

/-- The cache refresh step at the top of ProcessMapper.find_process_by_port:
    increment the counter, replace the snapshot on the periodic refresh,
    and refresh once more if the cache is still empty.  refreshResult is
    the table the surrounding OS hands back for this call; on a psutil
    failure it is the empty table. -/
def effectiveCache (st : PMState) (refreshResult : List (ConnKey × ProcInfo)) :
    List (ConnKey × ProcInfo) × Nat :=
  let c1 := st.refresh_counter + 1
  let p := if st.refresh_interval ≤ c1 then (refreshResult, 0) else (st.connection_cache, c1)
  (if p.1 = [] then refreshResult else p.1, p.2)

/-- ProcessMapper.find_process_by_port.  The remote arguments are present
    only when truthy in Python, so the exact lookup runs only for a
    nonempty remote IP and a nonzero remote port; on a miss the scan over
    local ports takes the first match, and lsof is the final fallback.
    Because the lsof helper can let an OS-level spawn error escape, the
    result is an Except; the state mutations happen before the fallback
    and survive either way. -/
def find_process_by_port (st : PMState)
    (refreshResult : List (ConnKey × ProcInfo)) (lsofO : LsofOutcome)
    (local_port : Nat) (remote_ip : Option String) (remote_port : Option Nat) :
    Except String (Option Nat × Option String) × PMState :=
  let ec := effectiveCache st refreshResult
  let cache := ec.1
  let st' : PMState :=
    { st with connection_cache := cache, refresh_counter := ec.2 }
  let exact : Option ProcInfo :=
    match remote_ip, remote_port with
    | some ip, some rp =>
      if ip ≠ "" ∧ rp ≠ 0 then lookupConn cache (local_port, ip, rp) else none
    | _, _ => none
  match exact with
  | some v => (.ok (some v.1, some v.2), st')
  | none =>
    match cache.find? (fun e => e.1.1 == local_port) with
    | some e => (.ok (some e.2.1, some e.2.2), st')
    | none => (find_process_with_lsof lsofO, st')

/-- The state of the batch writer inside NetworkMonitor: the in-memory
    batch buffer and the database contents, both oldest record first. -/
structure WorkerState (α : Type) where
  batch_buffer : List α
  db : List α

/-- One iteration of NetworkMonitor.packet_processor_worker after a
    record has been enriched: append to the batch buffer, and flush the
    buffer to the database when it reaches the batch size. -/
def process_record {α : Type} (batch_size : Nat) (st : WorkerState α) (r : α) :
    WorkerState α :=
  let batch := st.batch_buffer ++ [r]
  if batch_size ≤ batch.length then ⟨[], st.db ++ batch⟩ else ⟨batch, st.db⟩

/-- The flush after the worker loop exits on shutdown: any remaining
    buffered records are written to the database. -/
def shutdown_flush {α : Type} (st : WorkerState α) : WorkerState α :=
  if st.batch_buffer.isEmpty then st else ⟨[], st.db ++ st.batch_buffer⟩

/-- NetworkMonitor.packet_processor_worker over the sequence of records
    it dequeues and enriches before the stop flag is observed, followed by
    the shutdown flush. -/
def run_worker {α : Type} (batch_size : Nat) (st : WorkerState α) (rs : List α) :
    WorkerState α :=
  shutdown_flush (rs.foldl (process_record batch_size) st)

/-- One row of the connections table, restricted to the columns that
    get_top_apps_by_bandwidth reads (plus the timestamp and category kept
    for context).  app_name is nullable in the schema. -/
structure DBRow where
  timestamp : ℚ
  app_name : Option String
  category : String
  packet_size : Int

/-- NetworkDatabase.get_top_apps_by_bandwidth: group the rows whose
    app_name is neither NULL nor the Unknown sentinel by name, sum the
    packet sizes, order by total descending and keep at most limit. -/
def get_top_apps_by_bandwidth (rows : List DBRow) (limit : Nat) : List (String × Int) :=
  let pos := rows.filterMap (fun r =>
    match r.app_name with
    | some a => if a = "Unknown" then none else some (a, r.packet_size)
    | none => none)
  let names := (pos.map Prod.fst).dedup
  let groups := names.map (fun a =>
    (a, ((pos.filter (fun pr => pr.1 == a)).map Prod.snd).sum))
  (sortByDesc Prod.snd groups).take limit

/- ------------------------------------------------------------------ -/
/- Theorems -/
/- ------------------------------------------------------------------ -/

/-- Folding pushes over the bounded queue keeps the suffix of capacity C
    of everything ever pushed (initial content included). -/
theorem sniffer_enqueue_foldl {α : Type} (C : Nat) (hC : 0 < C) :
    ∀ (s q : List α), q.length ≤ C →
      s.foldl (sniffer_enqueue C) q = (q ++ s).drop (q.length + s.length - C) := by
  intro s
  induction s with
  | nil =>
    intro q hq
    simp [Nat.sub_eq_zero_of_le hq]
  | cons x t ih =>
    intro q hq
    rw [List.foldl_cons]
    by_cases h : q.length < C
    · rw [show sniffer_enqueue C q x = q ++ [x] from by simp [sniffer_enqueue, h]]
      rw [ih (q ++ [x]) (by simp only [List.length_append, List.length_cons, List.length_nil]; omega)]
      rw [show (q ++ [x]) ++ t = q ++ x :: t from by simp]
      rw [show (q ++ [x]).length + t.length - C = q.length + (x :: t).length - C from by
        simp only [List.length_append, List.length_cons, List.length_nil]; omega]
    · have hqC : q.length = C := Nat.le_antisymm hq (Nat.le_of_not_lt h)
      cases q with
      | nil => simp at hqC; omega
      | cons a q' =>
        simp only [List.length_cons] at hqC
        rw [show sniffer_enqueue C (a :: q') x = q' ++ [x] from by
          simp only [sniffer_enqueue]; rw [if_neg h]; simp]
        rw [ih (q' ++ [x]) (by simp only [List.length_append, List.length_cons, List.length_nil]; omega)]
        rw [show (q' ++ [x]) ++ t = q' ++ x :: t from by simp]
        rw [show (q' ++ [x]).length + t.length - C = t.length from by
          simp only [List.length_append, List.length_cons, List.length_nil]; omega]
        rw [show (a :: q') ++ x :: t = a :: (q' ++ x :: t) from by simp]
        rw [show (a :: q').length + (x :: t).length - C = t.length + 1 from by
          simp only [List.length_cons]; omega]
        rw [List.drop_succ_cons]

/-- C1: pushing through the sniffer enqueue path keeps at most C elements;
once at least C events have been pushed the queue holds exactly the C most
recent events in arrival order; and a push onto a full queue evicts the
single oldest element and appends the new one. -/
theorem sniffer_queue_drop_oldest {α : Type} (C : Nat) (hC : 0 < C) (s : List α) :
    (s.foldl (sniffer_enqueue C) []).length ≤ C ∧
    (C ≤ s.length → s.foldl (sniffer_enqueue C) [] = s.drop (s.length - C)) ∧
    (∀ (q : List α) (x : α), q.length = C →
      sniffer_enqueue C q x = q.drop 1 ++ [x]) := by
  have key := sniffer_enqueue_foldl C hC s []
  simp only [List.nil_append, List.length_nil, Nat.zero_add] at key
  have key' := key (Nat.zero_le C)
  refine ⟨?_, fun _ => key', ?_⟩
  · rw [key', List.length_drop]
    omega
  · intro q x hq
    simp [sniffer_enqueue, hq]

/-- Witness for C1: capacity two, three pushes, the queue retains the two
most recent events in order. -/
theorem sniffer_queue_drop_oldest_witness :
    ([0, 1, 2] : List Nat).foldl (sniffer_enqueue 2) [] = [1, 2] := by
  have h := (sniffer_queue_drop_oldest 2 (by decide) ([0, 1, 2] : List Nat)).2.1 (by decide)
  simpa using h

/-- A table none of whose keywords occurs in the hostname categorizes to
    Other. -/
theorem lookupCat_of_no_match (hl : List Char) :
    ∀ (table : List (String × List (List Char))),
      (∀ e ∈ table, ∀ kw ∈ e.2, containsSub kw hl = false) →
      lookupCat hl table = "Other" := by
  intro table
  induction table with
  | nil => intro _; rfl
  | cons e rest ih =>
    intro h
    have he : e.2.any (fun kw => containsSub kw hl) = false := by
      rw [List.any_eq_false]
      intro kw hkw
      simp [h e (by simp) kw hkw]
    simp only [lookupCat, he, Bool.false_eq_true, if_false]
    exact ih (fun e' he' kw hkw => h e' (by simp [he']) kw hkw)

/-- The first table entry with a matching keyword decides the category. -/
theorem lookupCat_first_match (hl : List Char) :
    ∀ (table : List (String × List (List Char))) (i : Nat)
      (e : String × List (List Char)),
      table[i]? = some e →
      e.2.any (fun kw => containsSub kw hl) = true →
      (∀ j ej, j < i → table[j]? = some ej →
        ej.2.any (fun kw => containsSub kw hl) = false) →
      lookupCat hl table = e.1 := by
  intro table
  induction table with
  | nil => intro i e h; simp at h
  | cons f rest ih =>
    intro i e hget hmatch hearlier
    cases i with
    | zero =>
      have hf : f = e := by simpa using hget
      subst hf
      simp [lookupCat, hmatch]
    | succ i' =>
      have hf : f.2.any (fun kw => containsSub kw hl) = false :=
        hearlier 0 f (Nat.succ_pos i') (by simp)
      simp only [lookupCat, hf, Bool.false_eq_true, if_false]
      exact ih i' e (by simpa using hget) hmatch
        (fun j ej hj hgj => hearlier (j + 1) ej (Nat.succ_lt_succ hj) (by simpa using hgj))

/-- C4: categorize_domain is deterministic; it depends only on the lowered
hostname, so matching is case-insensitive; a hostname containing none of
the known keywords yields Other, as do a missing and an empty hostname;
and the first matching category of the ordered table wins. -/
theorem categorize_domain_spec :
    (∀ h : Option String, categorize_domain h = categorize_domain h) ∧
    (∀ s₁ s₂ : String, lowerChars s₁.data = lowerChars s₂.data →
      categorize_domain (some s₁) = categorize_domain (some s₂)) ∧
    (∀ s : String,
      (∀ e ∈ CATEGORY_KEYWORDS, ∀ kw ∈ e.2, containsSub kw (lowerChars s.data) = false) →
      categorize_domain (some s) = "Other") ∧
    (categorize_domain none = "Other" ∧ categorize_domain (some "") = "Other") ∧
    (∀ (s : String) (i : Nat) (e : String × List (List Char)),
      s.data.isEmpty = false →
      CATEGORY_KEYWORDS[i]? = some e →
      e.2.any (fun kw => containsSub kw (lowerChars s.data)) = true →
      (∀ j ej, j < i → CATEGORY_KEYWORDS[j]? = some ej →
        ej.2.any (fun kw => containsSub kw (lowerChars s.data)) = false) →
      categorize_domain (some s) = e.1) := by
  refine ⟨fun _ => rfl, ?_, ?_, ⟨rfl, rfl⟩, ?_⟩
  · intro s₁ s₂ hlow
    have hlen : s₁.data.length = s₂.data.length := by
      have h := congrArg List.length hlow
      simpa [lowerChars] using h
    unfold categorize_domain
    by_cases h1 : s₁.data.isEmpty
    · have h2 : s₂.data.isEmpty := by
        rw [List.isEmpty_iff_length_eq_zero] at h1 ⊢
        omega
      simp [h1, h2]
    · have h2 : ¬ s₂.data.isEmpty := by
        rw [List.isEmpty_iff_length_eq_zero] at h1 ⊢
        omega
      simp only [Bool.not_eq_true] at h1 h2
      simp [h1, h2, hlow]
  · intro s hnone
    unfold categorize_domain
    by_cases h1 : s.data.isEmpty
    · simp [h1]
    · simp only [Bool.not_eq_true] at h1
      simp [h1, lookupCat_of_no_match _ CATEGORY_KEYWORDS hnone]
  · intro s i e hne hget hmatch hearlier
    unfold categorize_domain
    simp [hne, lookupCat_first_match _ CATEGORY_KEYWORDS i e hget hmatch hearlier]

/-- Witness for C4: the first category, Streaming, wins on a hostname that
matches its first keyword despite mixed case. -/
theorem categorize_domain_spec_witness :
    categorize_domain (some "www.YouTube.com") = "Streaming" :=
  categorize_domain_spec.2.2.2.2 "www.YouTube.com" 0 ("Streaming", streamingKws)
    (by decide) (by decide) (by decide)
    (fun j ej hj _ => absurd hj (Nat.not_lt_zero j))

/-- C6: resolve_ip either returns the hostname the lookup found, or
returns none on every failure outcome; as a total function of the lookup
outcome it propagates no exception. -/
theorem resolve_ip_no_raise (o : ReverseDnsOutcome) :
    (∃ h, o = .found h ∧ resolve_ip o = some h) ∨
    (resolve_ip o = none ∧ ∀ h, o ≠ .found h) := by
  cases o with
  | found h => exact Or.inl ⟨h, rfl, rfl⟩
  | herror => exact Or.inr ⟨rfl, fun _ hh => nomatch hh⟩
  | gaierror => exact Or.inr ⟨rfl, fun _ hh => nomatch hh⟩
  | timedOut => exact Or.inr ⟨rfl, fun _ hh => nomatch hh⟩
  | otherError m => exact Or.inr ⟨rfl, fun _ hh => nomatch hh⟩

/-- Through the worker loop, database contents followed by buffered
    records always equal the initial contents followed by everything
    processed, in order. -/
theorem worker_foldl_inv {α : Type} (bs : Nat) :
    ∀ (rs : List α) (st : WorkerState α),
      (rs.foldl (process_record bs) st).db ++
        (rs.foldl (process_record bs) st).batch_buffer =
      st.db ++ st.batch_buffer ++ rs := by
  intro rs
  induction rs with
  | nil => intro st; simp
  | cons r t ih =>
    intro st
    rw [List.foldl_cons, ih]
    simp only [process_record]
    split <;> simp

/-- C7: once the worker loop exits on stop, the shutdown flush writes every
record still buffered, so the database holds every record that reached the
batch buffer, in arrival order, and the buffer ends empty. -/
theorem monitor_stop_flushes {α : Type} (bs : Nat) (st : WorkerState α) (rs : List α) :
    (run_worker bs st rs).db = st.db ++ st.batch_buffer ++ rs ∧
    (run_worker bs st rs).batch_buffer = [] := by
  have h := worker_foldl_inv bs rs st
  unfold run_worker shutdown_flush
  by_cases hb : (rs.foldl (process_record bs) st).batch_buffer.isEmpty
  · have hnil : (rs.foldl (process_record bs) st).batch_buffer = [] := by
      simpa using hb
    rw [if_pos hb]
    refine ⟨?_, hnil⟩
    rw [← h, hnil, List.append_nil]
  · rw [if_neg hb]
    exact ⟨h, rfl⟩

/-- Bumping a counter adds its increment to the sum of the values. -/
theorem sumValues_bumpAssoc (k : String) (v : Nat) :
    ∀ l : List (String × Nat), sumValues (bumpAssoc k v l) = sumValues l + v := by
  intro l
  induction l with
  | nil => simp [bumpAssoc, sumValues]
  | cons e rest ih =>
    by_cases h : e.1 = k
    · simp [bumpAssoc, h, sumValues]
      omega
    · simp only [bumpAssoc, h, if_false, sumValues, List.map_cons, List.sum_cons]
      have := ih
      simp only [sumValues] at this
      omega

/-- The decision component of is_outgoing: local cache membership or one
    of the three literal string prefixes. -/
theorem is_outgoing_fst (l : List String) (ip : String) :
    (is_outgoing l ip).1 =
      (l.contains ip ||
        (startsWithChars "192.168.".data ip.data ||
         startsWithChars "10.".data ip.data ||
         startsWithChars "172.".data ip.data)) := by
  unfold is_outgoing
  cases hc : l.contains ip with
  | true => simp
  | false =>
    cases hp : (startsWithChars "192.168.".data ip.data ||
        startsWithChars "10.".data ip.data ||
        startsWithChars "172.".data ip.data) with
    | true => simp [hp]
    | false => simp [hp]

/-- One add_packet call adds the packet size to the combined upload and
    download totals. -/
theorem add_packet_totals (st : AggState) (p : PacketData) (now : ℚ) :
    (add_packet st p now).total_upload + (add_packet st p now).total_download =
      st.total_upload + st.total_download + p.packet_size.getD 0 := by
  simp only [add_packet]
  split <;>
    (cases hog : (is_outgoing st.local_ips (p.source_ip.getD "")).1 <;> simp [hog] <;> omega)

/-- One add_packet call adds the packet size to the sum of the per-app
    byte counters. -/
theorem add_packet_app_sum (st : AggState) (p : PacketData) (now : ℚ) :
    sumValues (add_packet st p now).app_bandwidth =
      sumValues st.app_bandwidth + p.packet_size.getD 0 := by
  simp only [add_packet]
  split <;> simp [sumValues_bumpAssoc]

/-- Folding add_packet accumulates the packet sizes into the combined
    totals. -/
theorem foldl_add_packet_totals :
    ∀ (ps : List (PacketData × ℚ)) (st : AggState),
      (ps.foldl (fun s pr => add_packet s pr.1 pr.2) st).total_upload +
        (ps.foldl (fun s pr => add_packet s pr.1 pr.2) st).total_download =
      st.total_upload + st.total_download + sumSizes ps := by
  intro ps
  induction ps with
  | nil => intro st; simp [sumSizes]
  | cons pr t ih =>
    intro st
    rw [List.foldl_cons, ih, add_packet_totals]
    simp [sumSizes]
    omega

/-- Folding add_packet accumulates the packet sizes into the per-app sum. -/
theorem foldl_add_packet_app_sum :
    ∀ (ps : List (PacketData × ℚ)) (st : AggState),
      sumValues (ps.foldl (fun s pr => add_packet s pr.1 pr.2) st).app_bandwidth =
        sumValues st.app_bandwidth + sumSizes ps := by
  intro ps
  induction ps with
  | nil => intro st; simp [sumSizes]
  | cons pr t ih =>
    intro st
    rw [List.foldl_cons, ih, add_packet_app_sum]
    simp [sumSizes]
    omega

/-- C2: after a fresh aggregator records a sequence of packets whose sizes
sum to S, the total_bandwidth of get_current_stats equals S, that is,
total_upload plus total_download equals S, and the per-app byte counters
also sum to S. -/
theorem aggregator_bandwidth_invariant (t0 tNow : ℚ) (ps : List (PacketData × ℚ)) :
    (get_current_stats (runAgg t0 ps) tNow).total_bandwidth = sumSizes ps ∧
    sumValues (runAgg t0 ps).app_bandwidth = sumSizes ps := by
  constructor
  · have h := foldl_add_packet_totals ps (initAggState t0)
    simp only [initAggState] at h
    simpa [get_current_stats, runAgg, initAggState] using h
  · have h := foldl_add_packet_app_sum ps (initAggState t0)
    simpa [runAgg, initAggState, sumValues] using h

/-- The packet that refutes the range reading of claim C3: its source IP
    172.32.0.1 lies outside 172.16/12. -/
def pkt172 : PacketData :=
  { timestamp := 0
    source_ip := some "172.32.0.1"
    app_name := some "Safari"
    category := some "Other"
    packet_size := some 5 }

/-- C3 counterexample: on a fresh aggregator, whose set of previously
observed local IPs is empty, a packet with source 172.32.0.1 is counted
entirely as upload, although 172.32.0.1 lies in none of the ranges 10/8,
172.16/12 and 192.168/16 that the claim names. -/
theorem is_outgoing_172_counterexample :
    (add_packet (initAggState 0) pkt172 0).total_upload = 5 ∧
    (add_packet (initAggState 0) pkt172 0).total_download = 0 ∧
    (initAggState 0).local_ips = [] ∧
    claimPrivateRange "172.32.0.1" = false := by
  have hog : (is_outgoing (initAggState 0).local_ips (pkt172.source_ip.getD "")).1 = true := by
    decide
  refine ⟨?_, ?_, rfl, by decide⟩ <;>
    (simp only [add_packet]; split <;> simp [hog, initAggState, pkt172])

/-- C3 amended: a packet size is counted as upload exactly when its source
IP is already in the confirmed-local set or starts with one of the literal
string prefixes 192.168. or 10. or 172. (hence all of 172/8, not only
172.16/12); otherwise it is counted as download. -/
theorem add_packet_upload_classification (st : AggState) (p : PacketData) (now : ℚ) :
    ((add_packet st p now).total_upload, (add_packet st p now).total_download) =
      (if st.local_ips.contains (p.source_ip.getD "") ||
          (startsWithChars "192.168.".data (p.source_ip.getD "").data ||
           startsWithChars "10.".data (p.source_ip.getD "").data ||
           startsWithChars "172.".data (p.source_ip.getD "").data)
       then (st.total_upload + p.packet_size.getD 0, st.total_download)
       else (st.total_upload, st.total_download + p.packet_size.getD 0)) := by
  have hog := is_outgoing_fst st.local_ips (p.source_ip.getD "")
  cases hb : (st.local_ips.contains (p.source_ip.getD "") ||
      (startsWithChars "192.168.".data (p.source_ip.getD "").data ||
       startsWithChars "10.".data (p.source_ip.getD "").data ||
       startsWithChars "172.".data (p.source_ip.getD "").data)) with
  | true =>
    have hog' : (is_outgoing st.local_ips (p.source_ip.getD "")).1 = true := by
      rw [hog, hb]
    simp only [add_packet, hb, if_true]
    split <;> simp [hog']
  | false =>
    have hog' : (is_outgoing st.local_ips (p.source_ip.getD "")).1 = false := by
      rw [hog, hb]
    simp only [add_packet, hb]
    split <;> simp [hog']

/-- C8: a reset aggregator reads back as all zeros and empty collections:
current stats are zero, the rate is zero, the per-app and per-category
tables, the history and the recent buffer are empty, and the uptime clock
restarts at the reset time. -/
theorem reset_stats_clears (st : AggState) (t now : ℚ) (n m : Nat) :
    (get_current_stats (reset_stats st t) now).total_packets = 0 ∧
    (get_current_stats (reset_stats st t) now).total_bandwidth = 0 ∧
    (get_current_stats (reset_stats st t) now).total_upload = 0 ∧
    (get_current_stats (reset_stats st t) now).total_download = 0 ∧
    (get_current_stats (reset_stats st t) now).current_rate = 0 ∧
    (get_current_stats (reset_stats st t) now).active_apps = 0 ∧
    (get_current_stats (reset_stats st t) now).packets_per_second = 0 ∧
    (get_current_stats (reset_stats st t) now).uptime = now - t ∧
    (reset_stats st t).start_time = t ∧
    get_top_apps (reset_stats st t) n = [] ∧
    get_bandwidth_by_category (reset_stats st t) = [] ∧
    get_bandwidth_history (reset_stats st t) = [] ∧
    get_recent_packets (reset_stats st t) m = [] := by
  refine ⟨rfl, rfl, rfl, rfl, rfl, rfl, ?_, rfl, rfl, ?_, rfl, rfl, ?_⟩
  · simp only [get_current_stats, reset_stats]
    split <;> simp
  · simp [get_top_apps, reset_stats, sortByDesc]
  · simp [get_recent_packets, reset_stats]

/-- C10: reset_stats leaves the confirmed-local IP set and the rate
sampling clock untouched while zeroing every counter and ring, so a packet
whose source was observed as local before the reset is still counted as
upload afterwards. -/
theorem reset_stats_frame (st : AggState) (t : ℚ) :
    (reset_stats st t).local_ips = st.local_ips ∧
    (reset_stats st t).last_rate_calc = st.last_rate_calc ∧
    (∀ (p : PacketData) (now : ℚ), p.source_ip.getD "" ∈ st.local_ips →
      (add_packet (reset_stats st t) p now).total_upload = p.packet_size.getD 0 ∧
      (add_packet (reset_stats st t) p now).total_download = 0) ∧
    (reset_stats st t).recent_packets = [] ∧
    (reset_stats st t).app_bandwidth = [] ∧
    (reset_stats st t).app_packet_count = [] ∧
    (reset_stats st t).category_bandwidth = [] ∧
    (reset_stats st t).bandwidth_history = [] ∧
    (reset_stats st t).total_packets = 0 ∧
    (reset_stats st t).total_upload = 0 ∧
    (reset_stats st t).total_download = 0 ∧
    (reset_stats st t).bytes_since_last_calc = 0 ∧
    (reset_stats st t).current_rate = 0 := by
  refine ⟨rfl, rfl, ?_, rfl, rfl, rfl, rfl, rfl, rfl, rfl, rfl, rfl, rfl⟩
  intro p now hmem
  have hc : (reset_stats st t).local_ips.contains (p.source_ip.getD "") = true := by
    have : st.local_ips.contains (p.source_ip.getD "") = true := by
      exact List.elem_iff.mpr hmem
    simpa [reset_stats] using this
  have hog : (is_outgoing (reset_stats st t).local_ips (p.source_ip.getD "")).1 = true := by
    rw [is_outgoing_fst, hc]
    simp
  constructor <;> (simp only [add_packet]; split <;> simp [hog, reset_stats])

/-- The aggregator state of the C10 witness: one IP confirmed local before
    the reset, outside every private prefix. -/
def st10 : AggState :=
  { initAggState 0 with local_ips := ["9.9.9.9"] }

/-- The packet of the C10 witness, sent from the confirmed-local IP. -/
def pkt10 : PacketData :=
  { timestamp := 0
    source_ip := some "9.9.9.9"
    app_name := some "Safari"
    category := some "Other"
    packet_size := some 7 }

/-- Witness for C10: after a reset, a packet from the previously observed
local IP 9.9.9.9 is still counted as upload. -/
theorem reset_stats_frame_witness :
    (add_packet (reset_stats st10 1) pkt10 2).total_upload = pkt10.packet_size.getD 0 ∧
    (add_packet (reset_stats st10 1) pkt10 2).total_download = 0 :=
  (reset_stats_frame st10 1).2.2.1 pkt10 2 (by decide)

/-- find? over an append whose first part has no match returns the head
    of the second part when it matches. -/
theorem find?_append_first {α : Type} (p : α → Bool) (e : α) :
    ∀ (l₁ l₂ : List α), (∀ x ∈ l₁, p x = false) → p e = true →
      (l₁ ++ e :: l₂).find? p = some e := by
  intro l₁
  induction l₁ with
  | nil =>
    intro l₂ _ he
    exact List.find?_cons_of_pos _ he
  | cons a t ih =>
    intro l₂ h1 he
    have ha : p a = false := h1 a (by simp)
    rw [List.cons_append, List.find?_cons_of_neg _ (by simp [ha])]
    exact ih l₂ (fun x hx => h1 x (by simp [hx])) he

/-- C5 counterexample: the except tuple of the lsof helper catches only
TimeoutExpired, SubprocessError and ValueError, so an error of the
OSError family raised while spawning lsof, such as FileNotFoundError when
the binary is missing, reaches the caller of find_process_by_port: with an
empty snapshot and a failed refresh the call raises instead of returning
the promised unresolved pair, refuting the original claim. -/
theorem find_process_by_port_oserror_counterexample :
    (find_process_by_port ⟨[], 0, 10⟩ [] (.oserror "FileNotFoundError: lsof") 443
        (some "1.2.3.4") (some 80)).1 =
      Except.error "FileNotFoundError: lsof" := rfl

/-- C5 amended: resolution order and failure behaviour of
find_process_by_port over the snapshot in effect for the call.  An exact
hit on (localPort, remoteIP, remotePort) wins; when the exact lookup
misses, and also when the remote endpoint is absent, the scan over local
ports takes the first match; with no matching local port the result is
the lsof fallback; a failed refresh together with a caught lsof failure
yields the unresolved pair without raising, as does a parse failure of
the lsof output; but an OS-level error spawning the lsof subprocess, which
the source does not catch, propagates to the caller. -/
theorem find_process_by_port_spec (st : PMState)
    (refreshResult : List (ConnKey × ProcInfo)) (lsofO : LsofOutcome)
    (local_port : Nat) (remote_ip : Option String) (remote_port : Option Nat) :
    (∀ ip rp v, remote_ip = some ip → remote_port = some rp → ip ≠ "" → rp ≠ 0 →
      lookupConn (effectiveCache st refreshResult).1 (local_port, ip, rp) = some v →
      (find_process_by_port st refreshResult lsofO local_port remote_ip remote_port).1 =
        Except.ok (some v.1, some v.2)) ∧
    (∀ ip rp l₁ e l₂, remote_ip = some ip → remote_port = some rp → ip ≠ "" → rp ≠ 0 →
      lookupConn (effectiveCache st refreshResult).1 (local_port, ip, rp) = none →
      (effectiveCache st refreshResult).1 = l₁ ++ e :: l₂ →
      (∀ x ∈ l₁, x.1.1 ≠ local_port) → e.1.1 = local_port →
      (find_process_by_port st refreshResult lsofO local_port remote_ip remote_port).1 =
        Except.ok (some e.2.1, some e.2.2)) ∧
    (∀ l₁ e l₂, remote_ip = none →
      (effectiveCache st refreshResult).1 = l₁ ++ e :: l₂ →
      (∀ x ∈ l₁, x.1.1 ≠ local_port) → e.1.1 = local_port →
      (find_process_by_port st refreshResult lsofO local_port remote_ip remote_port).1 =
        Except.ok (some e.2.1, some e.2.2)) ∧
    ((∀ x ∈ (effectiveCache st refreshResult).1, x.1.1 ≠ local_port) →
      (find_process_by_port st refreshResult lsofO local_port remote_ip remote_port).1 =
        find_process_with_lsof lsofO) ∧
    (st.connection_cache = [] → refreshResult = [] → lsofO = .fail →
      (find_process_by_port st refreshResult lsofO local_port remote_ip remote_port).1 =
        Except.ok (none, none)) ∧
    (∀ rc lines, lsofScan lines none = none →
      find_process_with_lsof (.ok rc lines) = Except.ok (none, none)) ∧
    (∀ msg, lsofO = .oserror msg →
      (∀ x ∈ (effectiveCache st refreshResult).1, x.1.1 ≠ local_port) →
      (find_process_by_port st refreshResult lsofO local_port remote_ip remote_port).1 =
        Except.error msg) := by
  have hdisp : ∀ (o : LsofOutcome),
      (∀ x ∈ (effectiveCache st refreshResult).1, x.1.1 ≠ local_port) →
      (find_process_by_port st refreshResult o local_port remote_ip remote_port).1 =
        find_process_with_lsof o := by
    intro o hnone
    have hscan : ((effectiveCache st refreshResult).1).find?
        (fun x => x.1.1 == local_port) = none := by
      rw [List.find?_eq_none]
      intro x hx
      simp [hnone x hx]
    rcases remote_ip with _ | ip
    · rcases remote_port with _ | rp <;> simp [find_process_by_port, hscan]
    · rcases remote_port with _ | rp
      · simp [find_process_by_port, hscan]
      · by_cases htr : ip ≠ "" ∧ rp ≠ 0
        · have h0 : ((effectiveCache st refreshResult).1).find?
              (fun x => x.1 == (local_port, ip, rp)) = none := by
            rw [List.find?_eq_none]
            intro x hx hbeq
            simp at hbeq
            exact hnone x hx (by rw [hbeq])
          simp [find_process_by_port, htr.1, htr.2, lookupConn, h0, hscan]
        · simp [find_process_by_port, htr, hscan]
  refine ⟨?_, ?_, ?_, hdisp lsofO, ?_, ?_, ?_⟩
  · intro ip rp v h1 h2 hip hrp hlook
    subst h1
    subst h2
    simp [find_process_by_port, hip, hrp, hlook]
  · intro ip rp l₁ e l₂ h1 h2 hip hrp hmiss hsplit hl₁ he
    subst h1
    subst h2
    have hfind : ((effectiveCache st refreshResult).1).find?
        (fun x => x.1.1 == local_port) = some e := by
      rw [hsplit]
      exact find?_append_first _ e l₁ l₂
        (fun x hx => by simp [hl₁ x hx]) (by simp [he])
    simp [find_process_by_port, hip, hrp, hmiss, hfind]
  · intro l₁ e l₂ hnone hsplit hl₁ he
    subst hnone
    have hfind : ((effectiveCache st refreshResult).1).find?
        (fun x => x.1.1 == local_port) = some e := by
      rw [hsplit]
      exact find?_append_first _ e l₁ l₂
        (fun x hx => by simp [hl₁ x hx]) (by simp [he])
    rcases remote_port with _ | rp <;> simp [find_process_by_port, hfind]
  · intro hcache hrr hlsof
    subst hrr
    subst hlsof
    have hec : (effectiveCache st []).1 = [] := by
      rcases le_or_lt st.refresh_interval (st.refresh_counter + 1) with h | h
      · simp [effectiveCache, h]
      · simp [effectiveCache, Nat.not_le.mpr h, hcache]
    have hnone : ∀ x ∈ (effectiveCache st []).1, x.1.1 ≠ local_port := by
      intro x hx
      rw [hec] at hx
      simp at hx
    rw [hdisp .fail hnone]
    rfl
  · intro rc lines hscanfail
    simp only [find_process_with_lsof]
    split
    · simp [hscanfail]
    · rfl
  · intro msg hmsg hnone
    subst hmsg
    rw [hdisp (.oserror msg) hnone]
    rfl

/-- Witness for C5: empty snapshot, failed refresh and a caught lsof
failure give the unresolved pair without raising. -/
theorem find_process_by_port_spec_witness :
    (find_process_by_port ⟨[], 0, 10⟩ [] .fail 443 (some "1.2.3.4") (some 80)).1 =
      Except.ok (none, none) :=
  (find_process_by_port_spec ⟨[], 0, 10⟩ [] .fail 443 (some "1.2.3.4") (some 80)).2.2.2.2.1
    rfl rfl rfl

/-- Members of an insertion are the inserted element or old members. -/
theorem mem_insertByDesc {α : Type} (val : α → Int) (x y : α) :
    ∀ l, y ∈ insertByDesc val x l → y = x ∨ y ∈ l := by
  intro l
  induction l with
  | nil =>
    intro h
    simp only [insertByDesc, List.mem_singleton] at h
    exact Or.inl h
  | cons a t ih =>
    intro h
    by_cases hc : val a ≤ val x
    · simp only [insertByDesc, if_pos hc, List.mem_cons] at h
      rcases h with h | h | h
      · exact Or.inl h
      · exact Or.inr (by simp [h])
      · exact Or.inr (by simp [h])
    · simp only [insertByDesc, if_neg hc, List.mem_cons] at h
      rcases h with h | h
      · exact Or.inr (by simp [h])
      · rcases ih h with h' | h'
        · exact Or.inl h'
        · exact Or.inr (by simp [h'])

/-- Insertion preserves descending order. -/
theorem pairwise_insertByDesc {α : Type} (val : α → Int) (x : α) :
    ∀ l, l.Pairwise (fun a b => val b ≤ val a) →
      (insertByDesc val x l).Pairwise (fun a b => val b ≤ val a) := by
  intro l
  induction l with
  | nil =>
    intro _
    simp [insertByDesc]
  | cons a t ih =>
    intro hp
    rcases List.pairwise_cons.mp hp with ⟨ha, ht⟩
    by_cases hc : val a ≤ val x
    · simp only [insertByDesc, if_pos hc]
      refine List.pairwise_cons.mpr ⟨?_, hp⟩
      intro b hb
      rcases List.mem_cons.mp hb with rfl | hb'
      · exact hc
      · exact le_trans (ha b hb') hc
    · simp only [insertByDesc, if_neg hc]
      refine List.pairwise_cons.mpr ⟨?_, ih ht⟩
      intro b hb
      rcases mem_insertByDesc val x b t hb with rfl | hb'
      · exact le_of_lt (lt_of_not_le hc)
      · exact ha b hb'

/-- The sort produces a list in descending order of the value. -/
theorem pairwise_sortByDesc {α : Type} (val : α → Int) :
    ∀ l, (sortByDesc val l).Pairwise (fun a b => val b ≤ val a) := by
  intro l
  induction l with
  | nil => simp [sortByDesc]
  | cons x t ih => exact pairwise_insertByDesc val x _ ih

/-- The sort permutes: every member of the output was in the input. -/
theorem mem_sortByDesc {α : Type} (val : α → Int) (y : α) :
    ∀ l, y ∈ sortByDesc val l → y ∈ l := by
  intro l
  induction l with
  | nil =>
    intro h
    simp only [sortByDesc] at h
    exact absurd h (List.not_mem_nil y)
  | cons x t ih =>
    intro h
    rcases mem_insertByDesc val x y _ h with rfl | h'
    · simp
    · simp [ih h']

/-- C9: the top apps query returns at most limit rows, in descending order
of cumulative bytes, and never returns the Unknown sentinel or a name that
is not the non-null app_name of some row. -/
theorem get_top_apps_by_bandwidth_spec (rows : List DBRow) (limit : Nat) :
    (get_top_apps_by_bandwidth rows limit).length ≤ limit ∧
    (get_top_apps_by_bandwidth rows limit).Pairwise (fun a b => b.2 ≤ a.2) ∧
    (∀ x ∈ get_top_apps_by_bandwidth rows limit,
      x.1 ≠ "Unknown" ∧ ∃ r ∈ rows, r.app_name = some x.1) := by
  refine ⟨?_, ?_, ?_⟩
  · simp only [get_top_apps_by_bandwidth, List.length_take]
    omega
  · have hp := pairwise_sortByDesc (α := String × Int) Prod.snd
    exact List.Pairwise.sublist (List.take_sublist _ _) (hp _)
  · intro x hx
    simp only [get_top_apps_by_bandwidth] at hx
    have hx1 := List.take_subset _ _ hx
    have hx2 := mem_sortByDesc Prod.snd x _ hx1
    rcases List.mem_map.mp hx2 with ⟨a, ha, hax⟩
    have hx1a : x.1 = a := by rw [← hax]
    subst hx1a
    have ha' : x.1 ∈ (rows.filterMap (fun r =>
        match r.app_name with
        | some a => if a = "Unknown" then none else some (a, r.packet_size)
        | none => none)).map Prod.fst := List.mem_dedup.mp ha
    rcases List.mem_map.mp ha' with ⟨pr, hpr, hpr1⟩
    rcases List.mem_filterMap.mp hpr with ⟨r, hr, hfr⟩
    rcases hran : r.app_name with _ | b
    · rw [hran] at hfr
      have hfr2 : (none : Option (String × Int)) = some pr := hfr
      simp at hfr2
    · rw [hran] at hfr
      have hfr2 : (if b = "Unknown" then none else some (b, r.packet_size)) = some pr := hfr
      by_cases hb : b = "Unknown"
      · rw [if_pos hb] at hfr2
        simp at hfr2
      · rw [if_neg hb] at hfr2
        have hprb : pr.1 = b := by
          have h3 := Option.some.inj hfr2
          rw [← h3]
        constructor
        · rw [← hpr1, hprb]
          exact hb
        · exact ⟨r, hr, by rw [hran, ← hpr1, hprb]⟩

/-- The single-row database of the C9 witness. -/
def rows9 : List DBRow :=
  [{ timestamp := 0, app_name := some "Safari", category := "Other", packet_size := 3 }]

/-- Witness for C9: the one result of the query on a one-row database is
not the Unknown sentinel and names the app_name of that row. -/
theorem get_top_apps_by_bandwidth_spec_witness :
    ("Safari", (3 : Int)).1 ≠ "Unknown" ∧
    ∃ r ∈ rows9, r.app_name = some ("Safari", (3 : Int)).1 :=
  (get_top_apps_by_bandwidth_spec rows9 5).2.2 ("Safari", 3) (by decide)

end NetMonitor
